import Mathlib

/-!
Verification of the GTFS realtime speed-estimation core
(scripts of the gtfs-rt-demo repository).

The Python source is shallowly embedded: real-valued quantities (meters
along a shape, interpolated times) are modelled as rationals, timestamps
as integer epoch seconds, nullable columns as `Option`, and dataframe
rows of a single trip as lists of records.  External libraries are
modelled at their call boundary: `shapely.LineString.project` is a
function parameter, and the `scipy` k-d tree query result is a parameter
of the caller that post-processes it.  `numpy.interp` is embedded
directly (piecewise linear interpolation with clamping at both ends).
-/

namespace GtfsRt

/-- A 2-D coordinate, as used for vp positions. -/
def Point : Type := ℚ × ℚ

/-- One stop-times row of a single trip: `stop_sequence`, the stop's
projected position along the shape (`stop_meters`), and the (nullable)
`arrival_time`, held as integer epoch seconds of the datetime. -/
structure StopRow where
  stop_sequence : ℕ
  stop_meters : ℚ
  arrival_time : Option ℤ
deriving DecidableEq, Repr, Inhabited

/-- Ordering of rows by `stop_sequence`, as used by
`sort_values(trip_stop_cols)` within one trip. -/
def seqLE (a b : StopRow) : Prop := a.stop_sequence ≤ b.stop_sequence

instance : DecidableRel seqLE := fun a b => Nat.decLe a.stop_sequence b.stop_sequence

/-- Embedding of `utils.cardinal_definition_rules`: the primary cardinal
direction from the eastward and northward displacement components. -/
def cardinal_definition_rules (distance_east : ℚ) (distance_north : ℚ) : String :=
  if |distance_east| > |distance_north| then
    if distance_east > 0 then "Eastbound"
    else if distance_east < 0 then "Westbound"
    else "Unknown"
  else
    if distance_north > 0 then "Northbound"
    else if distance_north < 0 then "Southbound"
    else "Unknown"

/-- Classifier written from the specification words (claim C8): compare
magnitudes; if the east component strictly dominates, East or West by its
sign; otherwise (ties included) North or South by the sign of the north
component; a winning component that is exactly zero gives Unknown. -/
def cardinal_rule_from_spec (dx : ℚ) (dy : ℚ) : String :=
  if |dx| > |dy| then
    if dx > 0 then "Eastbound" else if dx < 0 then "Westbound" else "Unknown"
  else
    if dy > 0 then "Northbound" else if dy < 0 then "Southbound" else "Unknown"

/-- Embedding of the `vp_idx` assignment of
`partridge_gtfs_wrangling.vp_preprocessing`: `vp_idx = gdf.index`, the
dataframe's nonnegative row positions `0, 1, ..., n-1`. -/
def vp_preprocessing_vp_idx (n : ℕ) : List ℤ :=
  (List.range n).map Int.ofNat

/-- Positions (into the candidate array) whose projected meters lie
strictly before the stop: `np.where(nearest_vp_projected - stop_meters < 0)[0]`
of `neighbor.filter_to_nearest2_vp`.  `np.where` returns positions in
ascending order. -/
def before_positions (projected : List ℚ) (stop_meters : ℚ) : List ℕ :=
  (List.range projected.length).filter
    (fun i => projected.getD i 0 - stop_meters < 0)

/-- Positions whose projected meters lie strictly after the stop:
`np.where(nearest_vp_projected - stop_meters > 0)[0]`. -/
def after_positions (projected : List ℚ) (stop_meters : ℚ) : List ℕ :=
  (List.range projected.length).filter
    (fun i => projected.getD i 0 - stop_meters > 0)

/-- Result record of `filter_to_nearest2_vp`, in the source's return
order `(before_idx, after_idx, before_vp_meters, after_vp_meters)`. -/
structure Nearest2VP where
  before_idx : ℤ
  after_idx : ℤ
  before_vp_meters : ℚ
  after_vp_meters : ℚ
deriving DecidableEq, Repr

/-- Embedding of `neighbor.filter_to_nearest2_vp`.  The call
`shape_geometry.project` into the external shapely library is the
`project` parameter.  The candidate coords are projected, partitioned by
sign of `projected - stop_meters`, and the element at the last before
position and at the first after position are selected
(`arr[before_indices][-1]`, `arr[after_indices][0]`), with sentinel
`-1` / `0` when a side is empty. -/
def filter_to_nearest2_vp (project : Point → ℚ)
    (nearest_vp_coords_array : List Point)
    (nearest_vp_idx_array : List ℤ)
    (stop_meters : ℚ) : Nearest2VP :=
  let nearest_vp_projected := nearest_vp_coords_array.map project
  let before_indices := before_positions nearest_vp_projected stop_meters
  let after_indices := after_positions nearest_vp_projected stop_meters
  let before_idx : ℤ :=
    match before_indices.getLast? with
    | some i => nearest_vp_idx_array.getD i 0
    | none => -1
  let before_vp_meters : ℚ :=
    match before_indices.getLast? with
    | some i => nearest_vp_projected.getD i 0
    | none => 0
  let after_idx : ℤ :=
    match after_indices.head? with
    | some i => nearest_vp_idx_array.getD i 0
    | none => -1
  let after_vp_meters : ℚ :=
    match after_indices.head? with
    | some i => nearest_vp_projected.getD i 0
    | none => 0
  ⟨before_idx, after_idx, before_vp_meters, after_vp_meters⟩

/-- Embedding of `neighbor.find_nearest_points`.  The scipy k-d tree
query of `nearest_snap` is external; its raw result (which may contain
the out-of-range sentinel `n` for missing neighbors) is the
`kdtree_result` parameter.  The function keeps only
`indices[indices < vp_idx_array.size]`. -/
def find_nearest_points (kdtree_result : List ℕ) (vp_idx_array_size : ℕ) : List ℕ :=
  kdtree_result.filter (fun i => i < vp_idx_array_size)

/-- Embedding of `numpy.interp`: one-dimensional piecewise-linear
interpolation of the points `(xp, fp)` at query `x`, clamping to the
first value below the first knot and to the last value above the last
knot.  A call with empty or length-mismatched knot lists raises in
numpy; those cases return 0 here and are excluded by hypotheses. -/
def np_interp (x : ℚ) : List ℚ → List ℚ → ℚ
  | [], _ => 0
  | [_], [] => 0
  | [_], y0 :: _ => y0
  | x0 :: x1 :: xs, y0 :: y1 :: ys =>
    if x < x0 then y0
    else if x ≤ x1 then y0 + (x - x0) * (y1 - y0) / (x1 - x0)
    else np_interp x (x1 :: xs) (y1 :: ys)
  | _ :: _ :: _, _ => 0

/-- Truncation toward zero, as numpy's cast of a float64 back to
`datetime64[s]` does in `interpolate_stop_arrival_time`. -/
def truncSeconds (q : ℚ) : ℤ :=
  if 0 ≤ q then ⌊q⌋ else ⌈q⌉

/-- Embedding of `neighbor.interpolate_stop_arrival_time`: timestamps
are cast to float seconds, linearly interpolated at the stop's position
with `np.interp`, and cast back to whole seconds. -/
def interpolate_stop_arrival_time (stop_position : ℚ)
    (shape_meters_arr : List ℚ) (timestamp_arr : List ℤ) : ℤ :=
  truncSeconds (np_interp stop_position shape_meters_arr
    (timestamp_arr.map (Int.cast : ℤ → ℚ)))

/-- Hour field of a timestamp held as integer epoch seconds, as pandas
`Series.dt.hour` yields it. -/
def dtHour (t : ℤ) : ℤ := t / 3600 % 24

/-- Minute field of a timestamp held as integer epoch seconds. -/
def dtMinute (t : ℤ) : ℤ := t / 60 % 60

/-- Second field of a timestamp held as integer epoch seconds. -/
def dtSecond (t : ℤ) : ℤ := t % 60

/-- Embedding of `neighbor.convert_timestamp_to_seconds` on one
timestamp value: `hour * 3600 + minute * 60 + second`. -/
def convert_timestamp_to_seconds (t : ℤ) : ℤ :=
  dtHour t * 3600 + dtMinute t * 60 + dtSecond t

/-- Seconds-of-day column value for a nullable timestamp (a missing
timestamp propagates as missing, like NaT to NaN). -/
def arrivalTimeSec (a : Option ℤ) : Option ℤ :=
  a.map convert_timestamp_to_seconds

/-- Modelled from the spec: `utils.monotonic_check` is referenced by
`neighbor.rolling_window_make_array` but its definition is not among the
source files.  Spec section 4.6 step 2 says to test strict monotonic
increase across the window; a missing value (NaN) in the window makes a
comparison fail, so any window containing a missing value and at least
two entries fails the test. -/
def monotonic_check : List (Option ℤ) → Bool
  | [] => true
  | [_] => true
  | a :: b :: rest =>
    (match a, b with
     | some x, some y => decide (x < y)
     | _, _ => false) && monotonic_check (b :: rest)

/-- Centered rolling windows of width 3, as
`rolling(window = 3, center = True)` slices a group's rows: position `i`
sees rows `i-1`, `i`, `i+1`, truncated at the group's edges. -/
def centered_windows3 (xs : List (Option ℤ)) : List (List (Option ℤ)) :=
  (List.range xs.length).map
    (fun i => (xs.drop (i - 1)).take (if i = 0 then 2 else 3))

/-- Embedding of `neighbor.rolling_window_make_array` (window 3) for one
trip: the `arrival_time_sec_monotonic` flag column, one Boolean per row,
from the monotonicity test on each centered window of seconds-of-day. -/
def rolling_window_monotonic_flags (rows : List StopRow) : List Bool :=
  (centered_windows3 (rows.map (fun r => arrivalTimeSec r.arrival_time))).map
    monotonic_check

/-- Embedding of `neighbor.stop_and_arrival_time_arrays_by_trip` for one
trip: collect the trip's rows with a present arrival time in
`trip_stop_cols` order as the reference arrays, then recompute every
row's arrival time by interpolation against those arrays.  When the trip
has no valid row, the inner merge drops all of its rows. -/
def stop_and_arrival_time_arrays_by_trip (rows : List StopRow) : List StopRow :=
  let valid := (List.insertionSort seqLE rows).filter
    (fun r => r.arrival_time.isSome)
  let stop_meters_arr := valid.map (fun r => r.stop_meters)
  let arrival_time_arr := valid.map (fun r => r.arrival_time.getD 0)
  if valid.isEmpty then []
  else rows.map (fun r =>
    { r with arrival_time := some (interpolate_stop_arrival_time
        r.stop_meters stop_meters_arr arrival_time_arr) })

/-- Embedding of `neighbor.enforce_monotonicity_and_interpolate_across_stops`
for one trip: compute seconds-of-day, the centered-window monotonicity
flags, null out the arrival time of every flagged-false row, re-run the
global interpolation when the trip has at least one false flag (the
trip is in `trips_with_one_false`), leave it as is otherwise, and sort
the result by `trip_stop_cols`.  The temporary columns are not part of
the row record, matching their drop at the end. -/
def enforce_monotonicity_and_interpolate_across_stops
    (rows : List StopRow) : List StopRow :=
  let flags := rolling_window_monotonic_flags rows
  let masked := List.zipWith
    (fun r f => if f then r else { r with arrival_time := none }) rows flags
  let fixed :=
    if flags.all (fun f => f) then masked
    else stop_and_arrival_time_arrays_by_trip masked
  List.insertionSort seqLE fixed

/-- Extended float value: a finite rational, a signed infinity, or NaN.
Finite values are modelled as exact rationals. -/
inductive XF where
  | fin : ℚ → XF
  | pinf : XF
  | ninf : XF
  | nan : XF
deriving DecidableEq, Repr, Inhabited

/-- Float subtraction on extended values. -/
def XF.sub : XF → XF → XF
  | fin a, fin b => fin (a - b)
  | nan, _ => nan
  | _, nan => nan
  | pinf, pinf => nan
  | pinf, _ => pinf
  | ninf, ninf => nan
  | ninf, _ => ninf
  | fin _, pinf => ninf
  | fin _, ninf => pinf

/-- Float multiplication on extended values. -/
def XF.mul : XF → XF → XF
  | fin a, fin b => fin (a * b)
  | nan, _ => nan
  | _, nan => nan
  | pinf, pinf => pinf
  | pinf, ninf => ninf
  | ninf, pinf => ninf
  | ninf, ninf => pinf
  | pinf, fin b => if b > 0 then pinf else if b < 0 then ninf else nan
  | fin a, pinf => if a > 0 then pinf else if a < 0 then ninf else nan
  | ninf, fin b => if b > 0 then ninf else if b < 0 then pinf else nan
  | fin a, ninf => if a > 0 then ninf else if a < 0 then pinf else nan

/-- Float division on extended values; division of a nonzero finite
value by zero yields a signed infinity, of zero by zero NaN. -/
def XF.div : XF → XF → XF
  | fin a, fin b =>
    if b = 0 then (if a > 0 then pinf else if a < 0 then ninf else nan)
    else fin (a / b)
  | nan, _ => nan
  | _, nan => nan
  | pinf, pinf => nan
  | pinf, ninf => nan
  | ninf, pinf => nan
  | ninf, ninf => nan
  | fin _, pinf => fin 0
  | fin _, ninf => fin 0
  | pinf, fin b => if b < 0 then ninf else pinf
  | ninf, fin b => if b < 0 then pinf else ninf

/-- Conversion constant `MPH_PER_MPS` of `utils`. -/
def MPH_PER_MPS : ℚ := 2237 / 1000

/-- Embedding of `utils.calculate_speed`:
`meters_elapsed / sec_elapsed * MPH_PER_MPS`, with no guard on a zero or
negative denominator. -/
def calculate_speed (meters_elapsed : XF) (sec_elapsed : XF) : XF :=
  (meters_elapsed.div sec_elapsed).mul (XF.fin MPH_PER_MPS)

/-- Seconds-of-day of a nullable timestamp as a float column value. -/
def toSecXF (a : Option ℤ) : XF :=
  match arrivalTimeSec a with
  | some s => XF.fin (s : ℚ)
  | none => XF.nan

/-- One output row of the speed aggregation: the elapsed meters, elapsed
seconds and speed of the segment from this stop to the next one in the
trip; the trip's last stop carries NaN fields (its shifted partner is
missing). -/
structure SegmentRow where
  stop_sequence : ℕ
  stop_meters : ℚ
  meters_elapsed : XF
  sec_elapsed : XF
  speed_mph : XF
deriving DecidableEq, Repr, Inhabited

/-- Embedding of `neighbor.calculate_speed_from_stop_arrivals` for one
trip: convert arrival times to seconds-of-day, sort by
`trip_stop_cols`, pair each row with the next row of the trip
(`shift(-1)`), and compute elapsed meters, elapsed seconds and
`speed_mph` with `utils.calculate_speed`. -/
def calculate_speed_from_stop_arrivals (rows : List StopRow) : List SegmentRow :=
  let sorted := List.insertionSort seqLE rows
  (List.range sorted.length).map (fun i =>
    let r := sorted.getD i default
    let subseq_arrival_time_sec : XF :=
      if i + 1 < sorted.length then
        toSecXF (sorted.getD (i + 1) default).arrival_time
      else XF.nan
    let subseq_stop_meters : XF :=
      if i + 1 < sorted.length then
        XF.fin (sorted.getD (i + 1) default).stop_meters
      else XF.nan
    let meters_elapsed := subseq_stop_meters.sub (XF.fin r.stop_meters)
    let sec_elapsed := subseq_arrival_time_sec.sub (toSecXF r.arrival_time)
    { stop_sequence := r.stop_sequence
      stop_meters := r.stop_meters
      meters_elapsed := meters_elapsed
      sec_elapsed := sec_elapsed
      speed_mph := calculate_speed meters_elapsed sec_elapsed })

theorem np_interp_below (x x0 : ℚ) (xs : List ℚ) (y0 : ℚ) (ys : List ℚ)
    (hlen : (x0 :: xs).length = (y0 :: ys).length) (hx : x < x0) :
    np_interp x (x0 :: xs) (y0 :: ys) = y0 := by
  cases xs with
  | nil => simp [np_interp]
  | cons x1 xs' =>
    cases ys with
    | nil => simp at hlen
    | cons y1 ys' => simp [np_interp, if_pos hx]

theorem np_interp_above (x : ℚ) :
    ∀ (xp fp : List ℚ), xp ≠ [] → xp.length = fp.length →
      (∀ e ∈ xp, e < x) → np_interp x xp fp = fp.getLastD 0
  | [], _, hne, _, _ => absurd rfl hne
  | [x0], [y0], _, _, _ => by simp [np_interp]
  | [x0], [], _, hlen, _ => by simp at hlen
  | [x0], y0 :: y1 :: ys, _, hlen, _ => by simp at hlen
  | x0 :: x1 :: xs, [], _, hlen, _ => by simp at hlen
  | x0 :: x1 :: xs, [y0], _, hlen, _ => by simp at hlen
  | x0 :: x1 :: xs, y0 :: y1 :: ys, _, hlen, hgt => by
    have h0 : x0 < x := hgt x0 (by simp)
    have h1 : x1 < x := hgt x1 (by simp)
    have hrec := np_interp_above x (x1 :: xs) (y1 :: ys) (by simp)
      (by simpa using hlen) (fun e he => hgt e (by simp [he]))
    simp only [np_interp, if_neg (not_lt.mpr h0.le), if_neg (not_le.mpr h1)]
    rw [hrec]
    simp [List.getLastD]

theorem np_interp_knot :
    ∀ (xp fp : List ℚ), xp.Chain' (· < ·) → xp.length = fp.length →
      ∀ (i : ℕ) (h1 : i < xp.length) (h2 : i < fp.length),
        np_interp (xp.get ⟨i, h1⟩) xp fp = fp.get ⟨i, h2⟩
  | [], _, _, _, i, h1, _ => absurd h1 (by simp)
  | [x0], [y0], _, _, 0, _, _ => by simp [np_interp]
  | [x0], [], _, hlen, _, _, h2 => absurd h2 (by simp)
  | [x0], y0 :: y1 :: ys, _, hlen, _, _, _ => by simp at hlen
  | x0 :: x1 :: xs, [], _, hlen, _, _, h2 => absurd h2 (by simp)
  | x0 :: x1 :: xs, [y0], _, hlen, _, _, _ => by simp at hlen
  | x0 :: x1 :: xs, y0 :: y1 :: ys, hchain, hlen, 0, h1, h2 => by
    have h01 : x0 < x1 := (List.chain'_cons.mp hchain).1
    simp only [List.get, np_interp, if_neg (lt_irrefl x0), if_pos h01.le]
    simp
  | x0 :: x1 :: xs, y0 :: y1 :: ys, hchain, hlen, 1, h1, h2 => by
    have h01 : x0 < x1 := (List.chain'_cons.mp hchain).1
    have hne : x1 - x0 ≠ 0 := sub_ne_zero_of_ne h01.ne'
    simp only [List.get, np_interp, if_neg (not_lt.mpr h01.le), if_pos (le_refl x1)]
    field_simp
  | x0 :: x1 :: xs, y0 :: y1 :: ys, hchain, hlen, (j + 2), h1, h2 => by
    have hpair : (x0 :: x1 :: xs).Pairwise (· < ·) :=
      List.chain'_iff_pairwise.mp hchain
    have hx : (x0 :: x1 :: xs).get ⟨j + 2, h1⟩ = xs.get ⟨j, by simpa using h1⟩ := rfl
    have hxs_mem : xs.get ⟨j, by simpa using h1⟩ ∈ xs := List.get_mem xs _ _
    have h0lt : x0 < xs.get ⟨j, by simpa using h1⟩ := by
      have := List.pairwise_cons.mp hpair
      exact this.1 _ (by simp [hxs_mem])
    have h1lt : x1 < xs.get ⟨j, by simpa using h1⟩ := by
      have := List.pairwise_cons.mp (List.pairwise_cons.mp hpair).2
      exact this.1 _ hxs_mem
    have hrec := np_interp_knot (x1 :: xs) (y1 :: ys)
      (List.chain'_cons.mp hchain).2 (by simpa using hlen) (j + 1)
      (by simpa using h1) (by simpa using h2)
    simp only [hx]
    simp only [np_interp, if_neg (not_lt.mpr h0lt.le), if_neg (not_le.mpr h1lt)]
    have hx2 : (x1 :: xs).get ⟨j + 1, by simpa using h1⟩ =
        xs.get ⟨j, by simpa using h1⟩ := rfl
    rw [hx2] at hrec
    rw [hrec]
    rfl

theorem truncSeconds_intCast (t : ℤ) : truncSeconds (t : ℚ) = t := by
  unfold truncSeconds
  split <;> simp

/-- Claim C8: `cardinal_definition_rules` is a total, deterministic, pure
function agreeing everywhere with the spec's rule (East/West by sign of
`dx` when `|dx| > |dy|`, otherwise North/South by sign of `dy`, Unknown
when the winning component is zero), and it maps the six sample inputs
`(5,1), (-5,1), (1,5), (1,-5), (0,0), (3,3)` as the claim lists. -/
theorem cardinal_rules_match_spec_and_examples :
    (∀ dx dy : ℚ, cardinal_definition_rules dx dy = cardinal_rule_from_spec dx dy) ∧
    cardinal_definition_rules 5 1 = "Eastbound" ∧
    cardinal_definition_rules (-5) 1 = "Westbound" ∧
    cardinal_definition_rules 1 5 = "Northbound" ∧
    cardinal_definition_rules 1 (-5) = "Southbound" ∧
    cardinal_definition_rules 0 0 = "Unknown" ∧
    cardinal_definition_rules 3 3 = "Northbound" := by
  refine ⟨fun dx dy => rfl, ?_, ?_, ?_, ?_, ?_, ?_⟩ <;>
    norm_num [cardinal_definition_rules]

/-- Claim C4: whatever raw index list the k-d tree backend returns,
every index in the array returned by `find_nearest_points` is strictly
less than the size of `vp_idx_array`, so later indexing with those
indices stays in bounds. -/
theorem find_nearest_points_in_bounds (kdtree_result : List ℕ)
    (vp_idx_array_size : ℕ) (i : ℕ)
    (hmem : i ∈ find_nearest_points kdtree_result vp_idx_array_size) :
    i < vp_idx_array_size := by
  have h := List.mem_filter.mp hmem
  simpa using h.2

/-- Witness for claim C4 at the concrete backend result `[0, 3, 7]`
with 5 candidates. -/
theorem find_nearest_points_in_bounds_witness :
    3 ∈ find_nearest_points [0, 3, 7] 5 ∧ 3 < 5 :=
  ⟨by decide, find_nearest_points_in_bounds [0, 3, 7] 5 3 (by decide)⟩

/-- Claim C3: an empty before-set yields the sentinel pair
`before_idx = -1`, `before_vp_meters = 0`, and independently an empty
after-set yields `after_idx = -1`, `after_vp_meters = 0`; the concrete
call with before-set empty and after-set `(idx 7, meters 120)` returns
`(-1, 7, 0, 120)`; and the sentinel `-1` never collides with a real
`vp_idx`, since `vp_preprocessing` assigns only nonnegative indices. -/
theorem filter_to_nearest2_vp_sentinels (project project2 : Point → ℚ)
    (coords coords2 : List Point) (idxs idxs2 : List ℤ) (stop stop2 : ℚ)
    (hb : before_positions (coords.map project) stop = [])
    (ha : after_positions (coords2.map project2) stop2 = []) :
    (filter_to_nearest2_vp project coords idxs stop).before_idx = -1 ∧
    (filter_to_nearest2_vp project coords idxs stop).before_vp_meters = 0 ∧
    (filter_to_nearest2_vp project2 coords2 idxs2 stop2).after_idx = -1 ∧
    (filter_to_nearest2_vp project2 coords2 idxs2 stop2).after_vp_meters = 0 ∧
    filter_to_nearest2_vp (fun p => p.1) [((120 : ℚ), (0 : ℚ))] [7] 100 =
      ⟨-1, 7, 0, 120⟩ ∧
    (∀ n : ℕ, ∀ k ∈ vp_preprocessing_vp_idx n, 0 ≤ k) ∧
    (∀ n : ℕ, (-1 : ℤ) ∉ vp_preprocessing_vp_idx n) := by
  refine ⟨?_, ?_, ?_, ?_, ?_, ?_, ?_⟩
  · simp [filter_to_nearest2_vp, hb]
  · simp [filter_to_nearest2_vp, hb]
  · simp [filter_to_nearest2_vp, ha]
  · simp [filter_to_nearest2_vp, ha]
  · norm_num [filter_to_nearest2_vp, before_positions, after_positions,
      List.range_succ]
  · intro n k hk
    rw [vp_preprocessing_vp_idx] at hk
    rcases List.mem_map.mp hk with ⟨j, _, rfl⟩
    exact Int.ofNat_nonneg j
  · intro n h
    rw [vp_preprocessing_vp_idx] at h
    rcases List.mem_map.mp h with ⟨j, _, hj⟩
    simp only [Int.ofNat_eq_natCast] at hj
    omega

/-- Witness for claim C3 with empty candidate lists on both sides. -/
theorem filter_to_nearest2_vp_sentinels_witness :
    before_positions (([] : List Point).map (fun _ => (0 : ℚ))) 0 = [] ∧
    after_positions (([] : List Point).map (fun _ => (0 : ℚ))) 0 = [] ∧
    ((filter_to_nearest2_vp (fun _ => 0) [] [] 0).before_idx = -1 ∧
      (filter_to_nearest2_vp (fun _ => 0) [] [] 0).before_vp_meters = 0 ∧
      (filter_to_nearest2_vp (fun _ => 0) [] [] 0).after_idx = -1 ∧
      (filter_to_nearest2_vp (fun _ => 0) [] [] 0).after_vp_meters = 0 ∧
      filter_to_nearest2_vp (fun p => p.1) [((120 : ℚ), (0 : ℚ))] [7] 100 =
        ⟨-1, 7, 0, 120⟩ ∧
      (∀ n : ℕ, ∀ k ∈ vp_preprocessing_vp_idx n, 0 ≤ k) ∧
      (∀ n : ℕ, (-1 : ℤ) ∉ vp_preprocessing_vp_idx n)) :=
  ⟨rfl, rfl,
    filter_to_nearest2_vp_sentinels (fun _ => 0) (fun _ => 0) [] [] [] [] 0 0
      rfl rfl⟩

/-- Counterexample to claim C1: with candidates projected at 50 and 30
meters (in nearest-neighbor order) against a stop at 100, both are in
the before-set, the element with the largest `vp_meters` is 50, yet
`filter_to_nearest2_vp` returns the bracket `(idx 4, meters 30)` - the
last element in candidate order, not the largest `vp_meters`. -/
theorem bracketing_takes_positional_not_extremal :
    filter_to_nearest2_vp (fun p => p.1)
        [((50 : ℚ), (0 : ℚ)), ((30 : ℚ), (0 : ℚ))] [3, 4] 100 =
      ⟨4, -1, 30, 0⟩ ∧
    ((50 : ℚ) - 100 < 0 ∧ (30 : ℚ) - 100 < 0) ∧
    (30 : ℚ) < 50 := by
  refine ⟨?_, by norm_num, by norm_num⟩
  norm_num [filter_to_nearest2_vp, before_positions, after_positions,
    List.range_succ]

/-- Claim C1 as amended: whenever the before-set is non-empty the
returned before bracket is the element of the before-set occupying the
last position in candidate (nearest-neighbor) order, and the after
bracket the element at the first after position; the before and after
position sets contain exactly the positions projecting strictly below,
respectively strictly above, `stop_meters`, so a candidate projecting
exactly onto the stop belongs to neither set. -/
theorem bracketing_selects_last_and_first (project : Point → ℚ)
    (coords : List Point) (idxs : List ℤ) (stop : ℚ)
    (hb : before_positions (coords.map project) stop ≠ [])
    (ha : after_positions (coords.map project) stop ≠ []) :
    (filter_to_nearest2_vp project coords idxs stop).before_idx =
      idxs.getD ((before_positions (coords.map project) stop).getLast hb) 0 ∧
    (filter_to_nearest2_vp project coords idxs stop).before_vp_meters =
      (coords.map project).getD
        ((before_positions (coords.map project) stop).getLast hb) 0 ∧
    (filter_to_nearest2_vp project coords idxs stop).after_idx =
      idxs.getD ((after_positions (coords.map project) stop).head ha) 0 ∧
    (filter_to_nearest2_vp project coords idxs stop).after_vp_meters =
      (coords.map project).getD
        ((after_positions (coords.map project) stop).head ha) 0 ∧
    (∀ i : ℕ, i ∈ before_positions (coords.map project) stop ↔
      (i < (coords.map project).length ∧ (coords.map project).getD i 0 < stop)) ∧
    (∀ i : ℕ, i ∈ after_positions (coords.map project) stop ↔
      (i < (coords.map project).length ∧ stop < (coords.map project).getD i 0)) := by
  refine ⟨?_, ?_, ?_, ?_, ?_, ?_⟩
  · simp [filter_to_nearest2_vp, List.getLast?_eq_getLast _ hb]
  · simp [filter_to_nearest2_vp, List.getLast?_eq_getLast _ hb]
  · simp [filter_to_nearest2_vp, List.head?_eq_head ha]
  · simp [filter_to_nearest2_vp, List.head?_eq_head ha]
  · intro i
    simp only [before_positions, List.mem_filter, List.mem_range,
      decide_eq_true_eq]
    constructor
    · rintro ⟨h1, h2⟩
      exact ⟨h1, by linarith⟩
    · rintro ⟨h1, h2⟩
      exact ⟨h1, by linarith⟩
  · intro i
    simp only [after_positions, List.mem_filter, List.mem_range,
      decide_eq_true_eq]
    constructor
    · rintro ⟨h1, h2⟩
      exact ⟨h1, by linarith⟩
    · rintro ⟨h1, h2⟩
      exact ⟨h1, by linarith⟩

/-- Witness for claim C1 (amended form) on a two-candidate input with
one candidate on each side of the stop. -/
theorem bracketing_selects_last_and_first_witness :
    (filter_to_nearest2_vp (fun p : Point => p.1)
        [((50 : ℚ), (0 : ℚ)), ((130 : ℚ), (0 : ℚ))] [3, 4] 100).before_idx = 3 ∧
    (filter_to_nearest2_vp (fun p : Point => p.1)
        [((50 : ℚ), (0 : ℚ)), ((130 : ℚ), (0 : ℚ))] [3, 4] 100).before_vp_meters = 50 ∧
    (filter_to_nearest2_vp (fun p : Point => p.1)
        [((50 : ℚ), (0 : ℚ)), ((130 : ℚ), (0 : ℚ))] [3, 4] 100).after_idx = 4 ∧
    (filter_to_nearest2_vp (fun p : Point => p.1)
        [((50 : ℚ), (0 : ℚ)), ((130 : ℚ), (0 : ℚ))] [3, 4] 100).after_vp_meters = 130 := by
  have h := bracketing_selects_last_and_first (fun p : Point => p.1)
    [((50 : ℚ), (0 : ℚ)), ((130 : ℚ), (0 : ℚ))] [3, 4] 100
    (by norm_num [before_positions, List.range_succ])
    (by norm_num [after_positions, List.range_succ])
  obtain ⟨h1, h2, h3, h4, _, _⟩ := h
  rw [h1, h2, h3, h4]
  refine ⟨?_, ?_, ?_, ?_⟩ <;>
    norm_num [before_positions, after_positions, List.range_succ]

theorem getLastD_map_intCast :
    ∀ (l : List ℤ), l ≠ [] →
      (l.map (Int.cast : ℤ → ℚ)).getLastD 0 = ((l.getLastD 0 : ℤ) : ℚ)
  | [], hne => absurd rfl hne
  | [t] , _ => by simp
  | t0 :: t1 :: ts, _ => by
    simpa [List.getLastD] using getLastD_map_intCast (t1 :: ts) (by simp)

/-- Claim C5: for a non-empty ascending list of known stop positions
with matching arrival times, `interpolate_stop_arrival_time` at a query
below every known position returns the first known arrival time, and at
a query above every known position returns the last one. -/
theorem interpolate_clamps_to_endpoints (q_low q_high : ℚ)
    (xp : List ℚ) (times : List ℤ)
    (hne : xp ≠ []) (hlen : xp.length = times.length)
    (hsorted : xp.Chain' (· ≤ ·))
    (hlow : ∀ e ∈ xp, q_low < e) (hhigh : ∀ e ∈ xp, e < q_high) :
    interpolate_stop_arrival_time q_low xp times = times.headD 0 ∧
    interpolate_stop_arrival_time q_high xp times = times.getLastD 0 := by
  cases xp with
  | nil => exact absurd rfl hne
  | cons x0 xs =>
    cases times with
    | nil => simp at hlen
    | cons t0 ts =>
      constructor
      · have hb := np_interp_below q_low x0 xs ((t0 : ℚ))
          (ts.map (Int.cast : ℤ → ℚ))
          (by simpa using hlen) (hlow x0 (by simp))
        simp only [interpolate_stop_arrival_time, List.map_cons]
        rw [hb]
        simp [truncSeconds_intCast]
      · have ha := np_interp_above q_high (x0 :: xs)
          ((t0 :: ts).map (Int.cast : ℤ → ℚ)) (by simp)
          (by simpa using hlen) hhigh
        simp only [interpolate_stop_arrival_time]
        rw [ha, getLastD_map_intCast (t0 :: ts) (by simp)]
        simp [truncSeconds_intCast]

/-- Witness for claim C5 on knots `[0, 10]` with times `[100, 200]`,
queried at -5 and 15. -/
theorem interpolate_clamps_to_endpoints_witness :
    (([(0 : ℚ), 10] : List ℚ) ≠ []) ∧
    interpolate_stop_arrival_time (-5) [0, 10] [100, 200] = 100 ∧
    interpolate_stop_arrival_time 15 [0, 10] [100, 200] = 200 := by
  have h := interpolate_clamps_to_endpoints (-5) 15 [0, 10] [100, 200]
    (by simp) (by simp) (by norm_num) (by norm_num) (by norm_num)
  exact ⟨by simp, by simpa using h.1, by simpa using h.2⟩

/-- Claim C6: on a trip whose stops all carry a present arrival time
and whose `stop_meters` are strictly increasing in `stop_sequence`
order, `stop_and_arrival_time_arrays_by_trip` returns every stop's
arrival time unchanged. -/
theorem interpolation_idempotent_on_clean (rows : List StopRow)
    (hall : ∀ r ∈ rows, r.arrival_time.isSome)
    (hmono : ((List.insertionSort seqLE rows).map
      (fun r => r.stop_meters)).Chain' (· < ·)) :
    (stop_and_arrival_time_arrays_by_trip rows).map (fun r => r.arrival_time) =
      rows.map (fun r => r.arrival_time) := by
  have hperm := List.perm_insertionSort seqLE rows
  have hfilter : (List.insertionSort seqLE rows).filter
      (fun r => r.arrival_time.isSome) = List.insertionSort seqLE rows :=
    List.filter_eq_self.mpr (fun r hr => hall r (hperm.mem_iff.mp hr))
  cases hrows : rows with
  | nil =>
    simp [stop_and_arrival_time_arrays_by_trip]
  | cons r0 rest =>
    rw [← hrows]
    have hne : rows ≠ [] := by simp [hrows]
    have hsne : List.insertionSort seqLE rows ≠ [] := by
      intro hcon
      exact hne ((hcon ▸ hperm).symm.eq_nil)
    simp only [stop_and_arrival_time_arrays_by_trip, hfilter,
      List.isEmpty_iff]
    rw [if_neg hsne]
    rw [List.map_map]
    apply List.map_congr_left
    intro r hmem
    obtain ⟨t, ht⟩ := Option.isSome_iff_exists.mp (hall r hmem)
    have hr : r ∈ List.insertionSort seqLE rows := hperm.mem_iff.mpr hmem
    obtain ⟨⟨i, hi⟩, hget⟩ := List.mem_iff_get.mp hr
    have hget2 : (List.insertionSort seqLE rows)[i] = r := by
      simpa [List.get_eq_getElem] using hget
    have hknot := np_interp_knot
      ((List.insertionSort seqLE rows).map (fun r => r.stop_meters))
      (((List.insertionSort seqLE rows).map
        (fun r => r.arrival_time.getD 0)).map (Int.cast : ℤ → ℚ))
      hmono (by simp) i (by simpa using hi) (by simpa using hi)
    have hxp : ((List.insertionSort seqLE rows).map
        (fun r => r.stop_meters)).get ⟨i, by simpa using hi⟩ = r.stop_meters := by
      simp [List.get_eq_getElem, hget2]
    have hfp : (((List.insertionSort seqLE rows).map
        (fun r => r.arrival_time.getD 0)).map (Int.cast : ℤ → ℚ)).get
        ⟨i, by simpa using hi⟩ = (t : ℚ) := by
      simp [List.get_eq_getElem, hget2, ht]
    rw [hxp, hfp] at hknot
    simp only [Function.comp]
    rw [interpolate_stop_arrival_time, hknot, truncSeconds_intCast, ht]

/-- Witness for claim C6 on a fully populated two-stop trip with
increasing `stop_meters`. -/
theorem interpolation_idempotent_on_clean_witness :
    (∀ r ∈ [(⟨1, 0, some 100⟩ : StopRow), ⟨2, 10, some 200⟩],
      r.arrival_time.isSome) ∧
    (stop_and_arrival_time_arrays_by_trip
        [(⟨1, 0, some 100⟩ : StopRow), ⟨2, 10, some 200⟩]).map
      (fun r => r.arrival_time) =
      [(⟨1, 0, some 100⟩ : StopRow), ⟨2, 10, some 200⟩].map
        (fun r => r.arrival_time) :=
  ⟨by simp, interpolation_idempotent_on_clean _ (by simp)
    (by norm_num [List.insertionSort, List.orderedInsert, seqLE])⟩

theorem rolling_flags_length (rows : List StopRow) :
    (rolling_window_monotonic_flags rows).length = rows.length := by
  simp [rolling_window_monotonic_flags, centered_windows3]

theorem zipWith_mask_all_true :
    ∀ (rows : List StopRow) (flags : List Bool),
      rows.length = flags.length → (∀ f ∈ flags, f = true) →
      List.zipWith (fun r f =>
        if f then r else { r with arrival_time := none }) rows flags = rows
  | [], [], _, _ => rfl
  | [], f :: fs, hlen, _ => by simp at hlen
  | r :: rs, [], hlen, _ => by simp at hlen
  | r :: rs, f :: fs, hlen, hall => by
    have hf : f = true := hall f (by simp)
    subst hf
    simp only [List.zipWith_cons_cons, if_pos rfl]
    rw [zipWith_mask_all_true rs fs (by simpa using hlen)
      (fun g hg => hall g (by simp [hg]))]
    simp

/-- Claim C9: a trip every one of whose centered-window monotonicity
flags is true (a CLEAN trip) passes through
`enforce_monotonicity_and_interpolate_across_stops` with all of its
rows unmodified (the helper columns are not part of the row record,
matching their drop). -/
theorem clean_trip_passes_through_unmodified (rows : List StopRow)
    (hsorted : List.Sorted seqLE rows)
    (hclean : ∀ f ∈ rolling_window_monotonic_flags rows, f = true) :
    enforce_monotonicity_and_interpolate_across_stops rows = rows := by
  have hall : (rolling_window_monotonic_flags rows).all (fun f => f) = true :=
    List.all_eq_true.mpr (fun f hf => hclean f hf)
  simp only [enforce_monotonicity_and_interpolate_across_stops, hall,
    if_pos]
  rw [zipWith_mask_all_true rows (rolling_window_monotonic_flags rows)
    (rolling_flags_length rows).symm hclean]
  exact hsorted.insertionSort_eq

/-- Witness for claim C9 on a two-stop trip with increasing arrival
times. -/
theorem clean_trip_passes_through_unmodified_witness :
    List.Sorted seqLE [(⟨1, 0, some 100⟩ : StopRow), ⟨2, 10, some 200⟩] ∧
    enforce_monotonicity_and_interpolate_across_stops
        [(⟨1, 0, some 100⟩ : StopRow), ⟨2, 10, some 200⟩] =
      [(⟨1, 0, some 100⟩ : StopRow), ⟨2, 10, some 200⟩] := by
  have hs : List.Sorted seqLE [(⟨1, 0, some 100⟩ : StopRow), ⟨2, 10, some 200⟩] := by
    simp [List.sorted_cons, seqLE]
  refine ⟨hs, clean_trip_passes_through_unmodified _ hs ?_⟩
  norm_num [rolling_window_monotonic_flags, centered_windows3,
    monotonic_check, arrivalTimeSec, convert_timestamp_to_seconds,
    dtHour, dtMinute, dtSecond, List.range_succ]

def c2rows : List StopRow :=
  [⟨1, 0, some 100⟩, ⟨2, 5, some 200⟩, ⟨3, 20, some 150⟩, ⟨4, 30, some 400⟩]

/-- Counterexample to claim C2: on the trip with arrival seconds
`[100, 200, 150, 400]` at sequences `[1, 2, 3, 4]` (stop meters
`[0, 5, 20, 30]`), the centered-window check flags stop sequence 2 as
well as 3 (its window `[100, 200, 150]` also fails strict increase), and
the repaired arrival times are `[100, 150, 300, 400]`, not the
`[100, 200, 320, 400]` the claim's exact-one-flag reading predicts
(320 being the interpolation at meters 20 over reference stops
`{1, 2, 4}`). -/
theorem monotonicity_repair_flags_stop_two_as_well :
    rolling_window_monotonic_flags c2rows = [true, false, false, true] ∧
    (enforce_monotonicity_and_interpolate_across_stops c2rows).map
      (fun r => r.arrival_time) = [some 100, some 150, some 300, some 400] ∧
    interpolate_stop_arrival_time 20 [0, 5, 30] [100, 200, 400] = 320 ∧
    (enforce_monotonicity_and_interpolate_across_stops c2rows).map
      (fun r => r.arrival_time) ≠ [some 100, some 200, some 320, some 400] := by
  have h2 : (enforce_monotonicity_and_interpolate_across_stops c2rows).map
      (fun r => r.arrival_time) = [some 100, some 150, some 300, some 400] := by
    norm_num [c2rows, enforce_monotonicity_and_interpolate_across_stops,
      rolling_window_monotonic_flags, centered_windows3, monotonic_check,
      arrivalTimeSec, convert_timestamp_to_seconds, dtHour, dtMinute, dtSecond,
      stop_and_arrival_time_arrays_by_trip, interpolate_stop_arrival_time,
      np_interp, truncSeconds, seqLE, List.range_succ, List.insertionSort,
      List.orderedInsert]
  refine ⟨?_, h2, ?_, ?_⟩
  · norm_num [c2rows, rolling_window_monotonic_flags, centered_windows3,
      monotonic_check, arrivalTimeSec, convert_timestamp_to_seconds,
      dtHour, dtMinute, dtSecond, List.range_succ]
  · norm_num [interpolate_stop_arrival_time, np_interp, truncSeconds]
  · rw [h2]
    decide

/-- Claim C2 as amended: on the trip with arrival seconds
`[100, 200, 150, 400]` at sequences `[1, 2, 3, 4]` and stop meters
`[0, 5, 20, 30]`, the repair flags stop sequences 2 and 3 as
non-monotonic and recomputes both by the global per-trip interpolation
over the remaining reference stops `{1, 4}`, leaving stops 1 and 4
unchanged. -/
theorem monotonicity_repair_on_c2rows :
    rolling_window_monotonic_flags c2rows = [true, false, false, true] ∧
    (enforce_monotonicity_and_interpolate_across_stops c2rows).map
      (fun r => r.arrival_time) =
      [some 100, some (interpolate_stop_arrival_time 5 [0, 30] [100, 400]),
        some (interpolate_stop_arrival_time 20 [0, 30] [100, 400]), some 400] ∧
    interpolate_stop_arrival_time 5 [0, 30] [100, 400] = 150 ∧
    interpolate_stop_arrival_time 20 [0, 30] [100, 400] = 300 := by
  have hi1 : interpolate_stop_arrival_time 5 [0, 30] [100, 400] = 150 := by
    norm_num [interpolate_stop_arrival_time, np_interp, truncSeconds]
  have hi2 : interpolate_stop_arrival_time 20 [0, 30] [100, 400] = 300 := by
    norm_num [interpolate_stop_arrival_time, np_interp, truncSeconds]
  refine ⟨?_, ?_, hi1, hi2⟩
  · norm_num [c2rows, rolling_window_monotonic_flags, centered_windows3,
      monotonic_check, arrivalTimeSec, convert_timestamp_to_seconds,
      dtHour, dtMinute, dtSecond, List.range_succ]
  · rw [hi1, hi2]
    norm_num [c2rows, enforce_monotonicity_and_interpolate_across_stops,
      rolling_window_monotonic_flags, centered_windows3, monotonic_check,
      arrivalTimeSec, convert_timestamp_to_seconds, dtHour, dtMinute, dtSecond,
      stop_and_arrival_time_arrays_by_trip, interpolate_stop_arrival_time,
      np_interp, truncSeconds, seqLE, List.range_succ, List.insertionSort,
      List.orderedInsert]

/-- Claim C7: after sorting a trip's rows by `stop_sequence`, each
consecutive pair is assigned `meters_elapsed` equal to the difference of
`stop_meters`, `sec_elapsed` equal to the difference of the converted
`arrival_time_sec` values, and `speed_mph` equal to
`meters_elapsed / sec_elapsed * 2.237`; in particular 500 meters over
100 seconds gives exactly 11.185 mph, a zero `sec_elapsed` gives
positive infinity, and a negative `meters_elapsed` gives a negative
speed - all representable outputs of the total function. -/
theorem speed_rows_formula (rows : List StopRow) (i : ℕ) (ta tb : ℤ)
    (h : i + 1 < (List.insertionSort seqLE rows).length)
    (hca : ((List.insertionSort seqLE rows).getD i default).arrival_time =
      some ta)
    (hcb : ((List.insertionSort seqLE rows).getD (i + 1) default).arrival_time =
      some tb) :
    ((calculate_speed_from_stop_arrivals rows).getD i default).meters_elapsed =
      XF.fin (((List.insertionSort seqLE rows).getD (i + 1) default).stop_meters -
        ((List.insertionSort seqLE rows).getD i default).stop_meters) ∧
    ((calculate_speed_from_stop_arrivals rows).getD i default).sec_elapsed =
      XF.fin ((convert_timestamp_to_seconds tb : ℚ) -
        (convert_timestamp_to_seconds ta : ℚ)) ∧
    ((calculate_speed_from_stop_arrivals rows).getD i default).speed_mph =
      calculate_speed
        ((calculate_speed_from_stop_arrivals rows).getD i default).meters_elapsed
        ((calculate_speed_from_stop_arrivals rows).getD i default).sec_elapsed ∧
    calculate_speed (XF.fin 500) (XF.fin 100) = XF.fin (11185 / 1000) ∧
    calculate_speed (XF.fin 500) (XF.fin 0) = XF.pinf ∧
    calculate_speed (XF.fin (-500)) (XF.fin 100) = XF.fin (-(11185 / 1000)) := by
  have h2 : i + 1 < rows.length := by simpa using h
  have hi2 : i < rows.length := by omega
  have hs : i < (List.insertionSort seqLE rows).length := by omega
  have hca2 := hca
  rw [List.getD_eq_getElem?_getD, List.getElem?_eq_getElem hs] at hca2
  simp only [Option.getD_some] at hca2
  have hcb2 := hcb
  rw [List.getD_eq_getElem?_getD, List.getElem?_eq_getElem h] at hcb2
  simp only [Option.getD_some] at hcb2
  refine ⟨?_, ?_, ?_, ?_, ?_, ?_⟩
  · simp [calculate_speed_from_stop_arrivals, List.getElem?_map,
      List.getElem?_range, h2, hi2, XF.sub]
  · simp [calculate_speed_from_stop_arrivals, List.getElem?_map,
      List.getElem?_range, h2, hi2, XF.sub, toSecXF, arrivalTimeSec,
      hca2, hcb2]
  · simp [calculate_speed_from_stop_arrivals, List.getElem?_map,
      List.getElem?_range, h2, hi2]
  · norm_num [calculate_speed, XF.div, XF.mul, MPH_PER_MPS]
  · norm_num [calculate_speed, XF.div, XF.mul, MPH_PER_MPS]
  · norm_num [calculate_speed, XF.div, XF.mul, MPH_PER_MPS]

def speedRowsEx : List StopRow := [⟨1, 0, some 0⟩, ⟨2, 500, some 100⟩]

/-- Witness for claim C7 on a two-stop trip 500 meters and 100
seconds apart. -/
theorem speed_rows_formula_witness :
    ((calculate_speed_from_stop_arrivals speedRowsEx).getD 0 default).meters_elapsed =
      XF.fin 500 ∧
    ((calculate_speed_from_stop_arrivals speedRowsEx).getD 0 default).sec_elapsed =
      XF.fin 100 ∧
    ((calculate_speed_from_stop_arrivals speedRowsEx).getD 0 default).speed_mph =
      XF.fin (11185 / 1000) := by
  have hlen : 0 + 1 < (List.insertionSort seqLE speedRowsEx).length := by
    norm_num [speedRowsEx, List.insertionSort, List.orderedInsert, seqLE]
  have h := speed_rows_formula speedRowsEx 0 0 100 hlen
    (by norm_num [speedRowsEx, List.insertionSort, List.orderedInsert, seqLE])
    (by norm_num [speedRowsEx, List.insertionSort, List.orderedInsert, seqLE])
  obtain ⟨h1, h2, h3, h4, _, _⟩ := h
  norm_num [speedRowsEx, List.insertionSort, List.orderedInsert, seqLE,
    convert_timestamp_to_seconds, dtHour, dtMinute, dtSecond] at h1 h2
  refine ⟨h1, h2, ?_⟩
  rw [h3]
  simp only [speedRowsEx, List.getD_eq_getElem?_getD]
  rw [h1, h2]
  exact h4

/-- Claim C10: `convert_timestamp_to_seconds` maps every timestamp to
its seconds-of-day value `t % 86400`, always in `[0, 86400)`; hence a
consecutive stop pair with timestamps 86340 (23:59:00) and 86460
(00:01:00 next day) - strictly increasing on the absolute timeline -
gets the negative `sec_elapsed` of -86280 seconds in
`calculate_speed_from_stop_arrivals`. -/
theorem seconds_of_day_wraps_at_midnight :
    (∀ t : ℤ, convert_timestamp_to_seconds t = t % 86400 ∧
      0 ≤ convert_timestamp_to_seconds t ∧
      convert_timestamp_to_seconds t < 86400) ∧
    (calculate_speed_from_stop_arrivals
        [⟨1, 0, some 86340⟩, ⟨2, 100, some 86460⟩]).map
      (fun s => s.sec_elapsed) = [XF.fin (-86280), XF.nan] ∧
    (86340 : ℤ) < 86460 ∧ (-86280 : ℚ) < 0 := by
  refine ⟨?_, ?_, by norm_num, by norm_num⟩
  · intro t
    unfold convert_timestamp_to_seconds dtHour dtMinute dtSecond
    refine ⟨?_, ?_, ?_⟩ <;> omega
  · norm_num [calculate_speed_from_stop_arrivals, List.insertionSort,
      List.orderedInsert, seqLE, toSecXF, arrivalTimeSec,
      convert_timestamp_to_seconds, dtHour, dtMinute, dtSecond, XF.sub,
      List.range_succ]

end GtfsRt
